import Mathlib

/-!
Shallow embedding of the Texas Hold'em engine in `src/poker/game.py`
(classes `Player`, `Table`, `GameRoom`).

Modelling conventions:
* Python `int` is embedded as `Int` (unbounded, signed).
* Python `dict[int, Player]` (`players_by_seat`) is embedded as
  `List Player` in dict (insertion) order; seat keys are the `seat`
  fields.  Dict indexing `players_by_seat[seat]` becomes
  `List.find?` on the seat field, and in-place mutation of the found
  `Player` object becomes `updPlayer`, which rewrites the first entry
  with that seat (dict keys are unique in every state the room builds,
  so first-match semantics agrees with the dict).
* The `treys` library is external to the repository.  Its `Deck()` is a
  uniformly shuffled 52-card deck; we pass the shuffled deck into
  `start_hand` as an explicit `List String` parameter and `deal` draws
  from its front.  Its `Evaluator().evaluate(board, hand)` is passed to
  `finish_showdown` as an explicit function parameter
  `evaluate : List String → List String → Int`.
* A Python method that may `raise RoomError(msg)` is embedded as a
  function returning the mutated state **plus** an `Option String`
  error slot; because exceptions in the source leave all mutations that
  already happened in place, the embedding returns the state as it was
  at the moment of the raise.
* `Player.last_action` strings and `Table.last_log` strings are kept
  (the source stores them); log text is reproduced where it matters.
-/

namespace Poker

/-- `Table.stage` values: `"waiting"|"preflop"|"flop"|"turn"|"river"|"showdown"`. -/
inductive Stage where
  | waiting
  | preflop
  | flop
  | turn
  | river
  | showdown
deriving DecidableEq, Repr

/-- `stage in ("preflop", "flop", "turn", "river")` (game.py line 294/413). -/
def Stage.isStreet : Stage → Bool
  | .preflop => true
  | .flop => true
  | .turn => true
  | .river => true
  | _ => false

/-- dataclass `Player` (game.py lines 16-34). -/
structure Player where
  sid : String
  name : String
  seat : Nat
  chips : Int := 1000
  buyin_total : Int := 1000
  ready : Bool := false
  hand : List String := []
  bet : Int := 0
  total_bet : Int := 0
  folded : Bool := false
  all_in : Bool := false
  last_act : Option String := none
deriving DecidableEq, Repr

/-- dataclass `HandResult` (game.py lines 37-41). -/
structure HandResult where
  winners : List Nat
  payouts : List (Nat × Int)
  ranking : List (Nat × Int)
deriving DecidableEq, Repr

/-- The mutable state of class `Table` (game.py lines 44-73). -/
structure Table where
  small_blind : Int := 5
  big_blind : Int := 10
  started : Bool := false
  hand_no : Nat := 0
  stage : Stage := .waiting
  board : List String := []
  pot : Int := 0
  dealer_seat : Option Nat := none
  sb_seat : Option Nat := none
  bb_seat : Option Nat := none
  utg_seat : Option Nat := none
  act_seat : Option Nat := none
  current_bet : Int := 0
  min_raise : Int := 10
  to_act : List Nat := []
  deck : List String := []
  last_log : Option String := none
  showdown_reveal : List (Nat × List String) := []
deriving DecidableEq, Repr

/-- `Table.__init__` + `reset_table_state` (game.py lines 45-73):
`min_raise` is initialised to `big_blind`. -/
def initTable (sb bb : Int) : Table :=
  { small_blind := sb, big_blind := bb, min_raise := bb }

/-- Python `sorted` on a list of seats (ascending). -/
def pysort (xs : List Nat) : List Nat := xs.insertionSort (· ≤ ·)

/-- Python `sorted` on a list of integers (ascending). -/
def pysortInt (xs : List Int) : List Int := xs.insertionSort (· ≤ ·)

/-- `Table._seat_order(seats, start_seat)` (game.py lines 75-81): sort the
seats ascending and rotate so the list starts at `start_seat` when present,
else start at index 0. -/
def seat_order (seats : List Nat) (start_seat : Nat) : List Nat :=
  if seats = [] then []
  else
    let ss := pysort seats
    let start_idx := if start_seat ∈ ss then ss.indexOf start_seat else 0
    ss.drop start_idx ++ ss.take start_idx

/-- `Table._next_seat(seats, current)` (game.py lines 83-91).  The source
raises `RoomError("no seats")` on an empty list; no call site can reach
that (every caller passes a non-empty seat list), so the embedding
returns 0 there. -/
def next_seat (seats : List Nat) (current : Nat) : Nat :=
  let order := pysort seats
  match order with
  | [] => 0
  | x :: _ =>
    if current ∈ order then
      order.getD ((order.indexOf current + 1) % order.length) 0
    else x

/-- First entry with the given seat: dict lookup `players_by_seat[seat]`. -/
def findSeat (ps : List Player) (seat : Nat) : Option Player :=
  ps.find? (fun q => q.seat = seat)

/-- Rewrite the first entry whose seat matches (in-place mutation of the
`Player` object held by the dict). -/
def updPlayer (ps : List Player) (seat : Nat) (f : Player → Player) : List Player :=
  match ps with
  | [] => []
  | p :: rest => if p.seat = seat then f p :: rest else p :: updPlayer rest seat f

/-- `seat_of_sid[sid]` where `seat_of_sid = {sid: p.seat}` (game.py line 494). -/
def sid_seat (ps : List Player) (sid : String) : Option Nat :=
  (ps.find? (fun q => q.sid = sid)).map (·.seat)

/-- All seat keys of the players dict, `players_by_seat.keys()`. -/
def seatsOf (ps : List Player) : List Nat := ps.map (·.seat)

/-- Σ `total_bet` over all players. -/
def totalBetSum (ps : List Player) : Int := (ps.map (·.total_bet)).sum

/-- Σ `chips` over all players. -/
def chipsSum (ps : List Player) : Int := (ps.map (·.chips)).sum

/-- `(action_type or "").lower().strip()` (game.py line 320), re-implemented
over the character list: ASCII lowercase then strip whitespace at both ends. -/
def lower_strip (s : String) : String :=
  let cs := s.data.map Char.toLower
  let cs := cs.dropWhile Char.isWhitespace
  String.mk ((cs.reverse.dropWhile Char.isWhitespace).reverse)

/-- `Table._ensure_turn` (game.py lines 123-132).  Returns the raised
error message, or `none` when the turn check passes.  The dict access
`players_by_seat[seat]` cannot fail (the seat came from the same player
map); the unreachable `KeyError` arm reports an internal marker. -/
def ensure_turn (t : Table) (ps : List Player) (sid : String) : Option String :=
  match t.act_seat with
  | none => some "牌局未开始"
  | some aseat =>
    match sid_seat ps sid with
    | none => some "你还未加入房间"
    | some seat =>
      if seat ≠ aseat then some "还没轮到你"
      else
        match findSeat ps seat with
        | none => some "KeyError"
        | some q => if q.folded then some "你已弃牌" else none

/-- `Table._start_betting_round` (game.py lines 134-146). -/
def start_betting_round (t : Table) (ps : List Player) (first_to_act : Nat) : Table :=
  let cb := match ps with
    | [] => 0
    | p :: rest => rest.foldl (fun a q => max a q.bet) p.bet
  let t := { t with current_bet := cb, min_raise := max t.big_blind t.min_raise }
  let seats := (ps.filter (fun p => !p.folded && !p.all_in)).map (·.seat)
  if seats = [] then { t with to_act := [], act_seat := none }
  else
    let order := seat_order seats first_to_act
    { t with to_act := order, act_seat := order.head? }

/-- `Table._remove_from_to_act` (game.py lines 148-151). -/
def remove_from_to_act (t : Table) (seat : Nat) : Table :=
  let ta := if seat ∈ t.to_act then t.to_act.erase seat else t.to_act
  { t with to_act := ta, act_seat := ta.head? }

/-- `Table._reset_round_bets` (game.py lines 153-157). -/
def reset_round_bets (t : Table) (ps : List Player) : Table × List Player :=
  ({ t with current_bet := 0, min_raise := t.big_blind },
   ps.map (fun p => { p with bet := 0 }))

/-- `Table._deal(n)` (game.py lines 159-166): draw `n` cards off the top of
the deck.  (The source raises if the deck runs dry; a 52-card deck never
does within one hand, so the embedding just takes what is there.) -/
def deal (t : Table) (n : Nat) : Table × List String :=
  ({ t with deck := t.deck.drop n }, t.deck.take n)

/-- `Table._post_blind(p, amount)` (game.py lines 168-176), identifying the
player by seat.  Returns the amount paid. -/
def post_blind (t : Table) (ps : List Player) (seat : Nat) (amount : Int) :
    Table × List Player × Int :=
  match findSeat ps seat with
  | none => (t, ps, 0)  -- unreachable KeyError: blind seats come from the seat list
  | some p =>
    let pay := min amount p.chips
    ({ t with pot := t.pot + pay },
     updPlayer ps seat (fun q =>
       { q with chips := q.chips - pay, bet := q.bet + pay,
                total_bet := q.total_bet + pay,
                all_in := if q.chips - pay = 0 then true else q.all_in }),
     pay)

/-- The hole-card dealing loop of `start_hand` (game.py lines 206-208):
`for seat in seat_order(...): players[seat].hand = deal(2)`. -/
def deal_holes (t : Table) (ps : List Player) (order : List Nat) : Table × List Player :=
  order.foldl
    (fun (acc : Table × List Player) seat =>
      ((deal acc.1 2).1,
       updPlayer acc.2 seat (fun q => { q with hand := (deal acc.1 2).2 })))
    (t, ps)

/-- `Table.start_hand(players_by_seat)` (game.py lines 178-236).  The fresh
shuffled `Deck()` is supplied as `newDeck`.  Returns the new table, the
new players, and the raised error (if any). -/
def start_hand (t : Table) (ps : List Player) (newDeck : List String) :
    Table × List Player × Option String :=
  let seats_in_room := pysort (seatsOf ps)
  if seats_in_room.length < 2 then (t, ps, some "至少需要 2 名玩家")
  else
    let t := { t with started := true, hand_no := t.hand_no + 1, stage := .preflop,
                      board := [], pot := 0, showdown_reveal := [], deck := newDeck }
    let ps := ps.map (fun p =>
      { p with hand := [], bet := 0, total_bet := 0, folded := false,
               all_in := false, last_act := none })
    let dealer := match t.dealer_seat with
      | none => seats_in_room.headD 0
      | some d => next_seat seats_in_room d
    let t := { t with dealer_seat := some dealer }
    let dh := deal_holes t ps (seat_order seats_in_room (next_seat seats_in_room dealer))
    let t := dh.1
    let ps := dh.2
    let sb_seat := if seats_in_room.length = 2 then dealer else next_seat seats_in_room dealer
    let bb_seat := if seats_in_room.length = 2 then next_seat seats_in_room dealer
                   else next_seat seats_in_room sb_seat
    let t := { t with sb_seat := some sb_seat, bb_seat := some bb_seat }
    let r1 := post_blind t ps sb_seat t.small_blind
    let r2 := post_blind r1.1 r1.2.1 bb_seat r1.1.big_blind
    let t := r2.1
    let ps := r2.2.1
    let t := { t with current_bet := max r1.2.2 r2.2.2, min_raise := t.big_blind }
    let first := if seats_in_room.length = 2 then sb_seat else next_seat seats_in_room bb_seat
    let t := { t with utg_seat := some first }
    (start_betting_round t ps first, ps, none)

/-- The stage-switch head of `_advance_stage` (game.py lines 240-252):
deal the street's cards and move one stage forward; `none` when the
stage is `waiting` or `showdown` (the `else: return` arm). -/
def deal_next_stage (t : Table) : Option Table :=
  match t.stage with
  | .preflop => some { t with stage := .flop, board := t.board ++ t.deck.take 3,
                              deck := t.deck.drop 3 }
  | .flop => some { t with stage := .turn, board := t.board ++ t.deck.take 1,
                           deck := t.deck.drop 1 }
  | .turn => some { t with stage := .river, board := t.board ++ t.deck.take 1,
                           deck := t.deck.drop 1 }
  | .river => some { t with stage := .showdown }
  | _ => none

/-- `Table._advance_stage` (game.py lines 238-262). -/
def advance_stage (t : Table) (ps : List Player) : Table × List Player :=
  let seats_in_room := pysort (seatsOf ps)
  match deal_next_stage t with
  | none => (t, ps)
  | some t1 =>
    if t1.stage = .showdown then (t1, ps)
    else
      let rb := reset_round_bets t1 ps
      let first := if seats_in_room.length = 2 then rb.1.dealer_seat.getD 0
                   else next_seat seats_in_room (rb.1.dealer_seat.getD 0)
      (start_betting_round rb.1 rb.2 first, rb.2)

/-- `Table._maybe_finish_early` (game.py lines 264-275).  Third component:
did the hand finish (the Python return value)? -/
def maybe_finish_early (t : Table) (ps : List Player) : Table × List Player × Bool :=
  let in_hand := (ps.filter (fun p => !p.folded)).map (·.seat)
  if in_hand.length = 1 then
    let winner_seat := in_hand.headD 0
    (({ t with
        last_log := some ("座位 " ++ toString winner_seat ++ " 赢得底池 " ++
                          toString t.pot ++ "（其他人弃牌）"),
        stage := .waiting, started := false, act_seat := none, to_act := [] }),
     updPlayer ps winner_seat (fun q => { q with chips := q.chips + t.pot }),
     true)
  else (t, ps, false)

/-- `Table._all_active_all_in_or_matched` (game.py lines 277-285). -/
def all_active_all_in_or_matched (t : Table) (ps : List Player) : Bool :=
  ps.all (fun p => p.folded || p.all_in || p.bet = t.current_bet)

/-- The `while` loop of `_auto_run_if_all_in` (game.py lines 294-302).
Each iteration strictly advances the stage, so at most 4 iterations run;
fuel 5 is enough from any stage. -/
def run_out : Nat → Table → List Player → Table × List Player
  | 0, t, ps => (t, ps)
  | n + 1, t, ps =>
    if t.stage.isStreet then
      let a := advance_stage t ps
      if a.1.stage = .showdown then a
      else if a.2.any (fun p => !p.folded && !p.all_in) then a
      else run_out n { a.1 with act_seat := none, to_act := [] } a.2
    else (t, ps)

/-- `Table._auto_run_if_all_in` (game.py lines 287-302). -/
def auto_run_if_all_in (t : Table) (ps : List Player) : Table × List Player :=
  if t.act_seat ≠ none then (t, ps)
  else if !all_active_all_in_or_matched t ps then (t, ps)
  else run_out 5 t ps

/-- The common tail of `apply_action` (game.py lines 412-416): advance the
stage when the round closed, then auto-run-out. -/
def after_action (t : Table) (ps : List Player) : Table × List Player :=
  let a :=
    if t.to_act = [] ∧ t.started = true ∧ t.stage.isStreet then advance_stage t ps
    else (t, ps)
  auto_run_if_all_in a.1 a.2

/-- The call effect (game.py lines 337-348, duplicated verbatim at lines
358-370 for a raise at or below `current_bet`); `logRaise` selects the
raise-branch log wording. -/
def call_effect (t : Table) (ps : List Player) (seat : Nat) (p : Player)
    (logRaise : Bool) : Table × List Player :=
  let need := max 0 (t.current_bet - p.bet)
  let pay := min need p.chips
  let ps1 := updPlayer ps seat (fun q =>
    { q with chips := q.chips - pay, bet := q.bet + pay, total_bet := q.total_bet + pay,
             all_in := if q.chips - pay = 0 ∧ need > 0 then true else q.all_in,
             last_act := some (if need > 0 then "call" else "check") })
  let msg :=
    if logRaise then
      if need > 0 then p.name ++ " calls " ++ toString pay else p.name ++ " checks"
    else
      if need > 0 then p.name ++ " 跟注 " ++ toString pay else p.name ++ " 过牌"
  let t1 := { t with pot := t.pot + pay, last_log := some msg }
  (remove_from_to_act t1 seat, ps1)

/-- The accepted-raise state update (game.py lines 381-393): move the
delta, flag all-in, bump `min_raise`, set `current_bet`. -/
def raise_update (t : Table) (ps : List Player) (seat : Nat) (p : Player)
    (raise_to : Int) : Table × List Player :=
  let delta := raise_to - p.bet
  let ps1 := updPlayer ps seat (fun q =>
    { q with chips := q.chips - delta, bet := raise_to, total_bet := q.total_bet + delta,
             all_in := if q.chips - delta = 0 then true else q.all_in,
             last_act := some "raise" })
  let t1 := { t with pot := t.pot + delta,
                     min_raise := max t.min_raise (raise_to - t.current_bet),
                     current_bet := raise_to,
                     last_log := some (p.name ++ " 加注到 " ++ toString raise_to) }
  (t1, ps1)

/-- The `to_act` rebuild after an accepted raise (game.py lines 395-407):
everyone else who can still act, ordered by `seat_order` starting from the
next seat (among all seats) after the raiser. -/
def raise_rebuild (t : Table) (ps : List Player) (seat : Nat) : Table :=
  let seats_can_act := (ps.filter (fun pl => pl.seat ≠ seat && !pl.folded && !pl.all_in)).map (·.seat)
  if seats_can_act = [] then { t with to_act := [], act_seat := none }
  else
    let order := seat_order seats_can_act (next_seat (pysort (seatsOf ps)) seat)
    { t with to_act := order, act_seat := order.head? }

/-- `Table.apply_action` (game.py lines 304-416).  Returns the state as
left by the call together with the raised `RoomError` message, if any.
(`amount` arrives already parsed to an integer; the `int(amount)`
conversion failure of line 353-356 lives at the transport boundary.) -/
def apply_action (t : Table) (ps : List Player) (sid : String)
    (action_type : String) (amount : Option Int) : Table × List Player × Option String :=
  if t.started = false ∨ t.stage = .waiting then (t, ps, some "牌局未开始")
  else match ensure_turn t ps sid with
  | some e => (t, ps, some e)
  | none =>
    let seat := (sid_seat ps sid).getD 0
    match findSeat ps seat with
    | none => (t, ps, some "KeyError")  -- unreachable: ensure_turn found this seat
    | some p =>
      let act := lower_strip action_type
      if act = "fold" then
        let ps1 := updPlayer ps seat (fun q => { q with folded := true, last_act := some "fold" })
        let t1 := remove_from_to_act { t with last_log := some (p.name ++ " 弃牌") } seat
        let m := maybe_finish_early t1 ps1
        if m.2.2 then (m.1, m.2.1, none)
        else
          let r := after_action m.1 m.2.1
          (r.1, r.2, none)
      else if act = "check" then
        if p.bet ≠ t.current_bet then (t, ps, some "不能过牌，需要跟注或弃牌")
        else
          let ps1 := updPlayer ps seat (fun q => { q with last_act := some "check" })
          let t1 := remove_from_to_act { t with last_log := some (p.name ++ " 过牌") } seat
          let r := after_action t1 ps1
          (r.1, r.2, none)
      else if act = "call" then
        let c := call_effect t ps seat p false
        let r := after_action c.1 c.2
        (r.1, r.2, none)
      else if act = "raise" then
        match amount with
        | none => (t, ps, some "需要填写加注到的金额")
        | some raise_to =>
          if raise_to ≤ t.current_bet then
            let c := call_effect t ps seat p true
            let r := after_action c.1 c.2
            (r.1, r.2, none)
          else if raise_to > p.bet + p.chips then (t, ps, some "筹码不足")
          else if raise_to - t.current_bet < t.min_raise ∧ ¬raise_to = p.bet + p.chips then
            (t, ps, some ("最小加注增量为 " ++ toString t.min_raise))
          else
            let u := raise_update t ps seat p raise_to
            let t2 := raise_rebuild u.1 u.2 seat
            let r := after_action t2 u.2
            (r.1, r.2, none)
      else (t, ps, some "未知操作")

/-! ### Settlement (`Table.finish_showdown`, game.py lines 418-480) -/

/-- `payouts[s] += d` on the payouts dict (first entry with key `s`). -/
def bumpPay (pays : List (Nat × Int)) (s : Nat) (d : Int) : List (Nat × Int) :=
  match pays with
  | [] => []
  | (k, v) :: rest => if k = s then (k, v + d) :: rest else (k, v) :: bumpPay rest s d

/-- `payouts[s]` with default 0 (the dict is initialised with every seat). -/
def lookupPay (pays : List (Nat × Int)) (s : Nat) : Int :=
  ((pays.find? (fun kv => kv.1 = s)).map (·.2)).getD 0

/-- `scores[s]` lookup (present for every contender). -/
def scoreOf (scores : List (Nat × Int)) (s : Nat) : Int :=
  ((scores.find? (fun kv => kv.1 = s)).map (·.2)).getD 0

/-- `min(scores[s] for s in eligible)`; `eligible` is non-empty at the
only call site. -/
def minScore (scores : List (Nat × Int)) (eligible : List Nat) : Int :=
  match eligible with
  | [] => 0
  | e :: rest => rest.foldl (fun m s => min m (scoreOf scores s)) (scoreOf scores e)

/-- The remainder loop of `finish_showdown` (game.py lines 464-468):
`for i in range(r): payouts[seats_sorted[i % len(seats_sorted)]] += 1`. -/
def add_remainder (pays : List (Nat × Int)) (seats_sorted : List Nat) (r : Nat) :
    List (Nat × Int) :=
  (List.range r).foldl
    (fun acc i => bumpPay acc (seats_sorted.getD (i % seats_sorted.length) 0) 1)
    pays

/-- One side-pot layer's award (game.py lines 458-468): integer share to
each winner, then the remainder one chip at a time over the winners in
ascending seat order.  Python `//` is floor division, hence `Int.fdiv`;
`range(remainder)` of a negative remainder is empty, hence `.toNat`. -/
def award_layer (pays : List (Nat × Int)) (winners : List Nat) (pot_amount : Int) :
    List (Nat × Int) :=
  let share := Int.fdiv pot_amount winners.length
  let remainder := pot_amount - share * winners.length
  let pays1 := winners.foldl (fun acc s => bumpPay acc s share) pays
  if remainder ≠ 0 then add_remainder pays1 (pysort winners) remainder.toNat else pays1

/-- The side-pot loop of `finish_showdown` (game.py lines 445-468), folding
over the contribution levels with accumulator `(payouts, prev)`. -/
def settle_levels (scores : List (Nat × Int)) (contenders : List Nat)
    (totals : List (Nat × Int)) (levels : List Int) (pays0 : List (Nat × Int)) :
    List (Nat × Int) :=
  (levels.foldl
    (fun (acc : List (Nat × Int) × Int) level =>
      let pays := acc.1
      let prev := acc.2
      let contributors := (totals.filter (fun st => st.2 ≥ level)).map (·.1)
      let pot_amount := (level - prev) * (contributors.length : Int)
      let eligible := contributors.filter (fun s => s ∈ contenders)
      if eligible = [] then (pays, level)
      else
        let best_score := minScore scores eligible
        let winners := eligible.filter (fun s => scoreOf scores s = best_score)
        (award_layer pays winners pot_amount, level))
    (pays0, 0)).1

/-- `Table.finish_showdown(players_by_seat)` (game.py lines 418-480).
`evaluate` is `treys.Evaluator().evaluate` (external), as a function of
the board and a hole hand.  Returns the state plus either the raised
error or the `HandResult`. -/
def finish_showdown (evaluate : List String → List String → Int)
    (t : Table) (ps : List Player) :
    Table × List Player × Option String × Option HandResult :=
  if t.stage ≠ .showdown then (t, ps, some "尚未进入摊牌", none)
  else
    let contenders := (ps.filter (fun p => !p.folded)).map (·.seat)
    if contenders.length = 1 then
      let winner := contenders.headD 0
      let hand := ((findSeat ps winner).map (·.hand)).getD []
      (({ t with showdown_reveal := t.showdown_reveal ++ [(winner, hand)] }),
       updPlayer ps winner (fun q => { q with chips := q.chips + t.pot }),
       none,
       some ⟨[winner], [(winner, t.pot)], [(winner, 0)]⟩)
    else
      let scores : List (Nat × Int) := contenders.map (fun s =>
        (s, evaluate t.board (((findSeat ps s).map (·.hand)).getD [])))
      let ranking := scores.insertionSort (fun a b => a.2 < b.2)
      let totals := ps.map (fun p => (p.seat, p.total_bet))
      let levels := pysortInt (((totals.map (·.2)).filter (fun v => 0 < v)).dedup)
      let pays0 := ps.map (fun p => (p.seat, (0 : Int)))
      let payouts := settle_levels scores contenders totals levels pays0
      let ps1 := payouts.foldl
        (fun acc kv => if kv.2 > 0 then updPlayer acc kv.1 (fun q => { q with chips := q.chips + kv.2 }) else acc)
        ps
      let winners_final := (payouts.filter (fun kv => kv.2 > 0 && kv.1 ∈ contenders)).map (·.1)
      let reveal := contenders.foldl
        (fun acc s => acc ++ [(s, ((findSeat ps s).map (·.hand)).getD [])]) t.showdown_reveal
      let t1 := { t with showdown_reveal := reveal }
      (t1, ps1, none, some ⟨winners_final, payouts.filter (fun kv => kv.2 ≠ 0), ranking⟩)

/-! ### Room coordination (`GameRoom`, game.py lines 483-656) -/

/-- The members of `GameRoom` the engine claims touch: `self.players`
(`sid → Player` dict, kept in insertion order) and `self.table`. -/
structure Room where
  players : List Player
  table : Table
deriving DecidableEq, Repr

/-- `GameRoom.start_hand(requester_sid)` (game.py lines 572-581), with the
fresh shuffled deck supplied.  `players_by_seat` iterates the players
dict in insertion order, which is the `Room.players` list order. -/
def room_start_hand (room : Room) (requester_sid : String) (newDeck : List String) :
    Room × Option String :=
  if (room.players.any (fun p => p.sid = requester_sid)) = false then (room, some "你还未加入房间")
  else if room.players.length < 2 then (room, some "至少需要 2 名玩家")
  else if (room.players.all (·.ready)) = false then (room, some "还有玩家未准备")
  else
    let r := start_hand room.table room.players newDeck
    ({ players := r.2.1, table := r.1 }, r.2.2)

/-- `GameRoom.remove_player(sid)` (game.py lines 541-564): when the hand is
running and it is the leaving player's turn, auto-fold first (exceptions
swallowed); then delete the player from the room dict. -/
def remove_player (room : Room) (sid : String) : Room :=
  match room.players.find? (fun p => p.sid = sid) with
  | none => room
  | some leaving =>
    let a :=
      if room.table.started = true ∧ room.table.act_seat = some leaving.seat then
        let r := apply_action room.table room.players sid "fold" none
        (r.1, r.2.1)
      else (room.table, room.players)
    { players := a.2.filter (fun p => p.sid ≠ sid), table := a.1 }

/-! ### Spec-side definitions (stated from the specification's words, for
comparison against the source embedding) -/

/-- The non-folded, non-all-in seats other than `raiser`, sorted ascending. -/
def eligAfterRaise (ps : List Player) (raiser : Nat) : List Nat :=
  pysort ((ps.filter (fun q => q.seat ≠ raiser && !q.folded && !q.all_in)).map (·.seat))

/-- Claim C4's ordering, from the spec's words: the eligible seats
"ordered cyclically by ascending seat number starting from the first
such seat after the raiser's seat". -/
def claimed_to_act (ps : List Player) (raiser : Nat) : List Nat :=
  let elig := eligAfterRaise ps raiser
  match elig.filter (fun s => raiser < s) with
  | [] => elig
  | x :: _ => elig.drop (elig.indexOf x) ++ elig.take (elig.indexOf x)

/-- The ordering the source actually produces (amended claim C4): start
from the seat cyclically after the raiser **among all seats of the player
map**; when that seat cannot act (folded/all-in), fall back to the lowest
eligible seat. -/
def amended_to_act (ps : List Player) (raiser : Nat) : List Nat :=
  let elig := eligAfterRaise ps raiser
  let nxt := next_seat (pysort (seatsOf ps)) raiser
  if nxt ∈ elig then elig.drop (elig.indexOf nxt) ++ elig.take (elig.indexOf nxt)
  else elig

/-- Claim C10's invariant: `action_seat` is the head of `to_act` when the
latter is non-empty, and `None` when it is empty. -/
def headInv (t : Table) : Prop := t.act_seat = t.to_act.head?

/-- Claim C3's invariant: the pot equals Σ `total_bet` over all players. -/
def potInv (t : Table) (ps : List Player) : Prop := t.pot = totalBetSum ps

instance (t : Table) : Decidable (headInv t) := by unfold headInv; infer_instance

instance (t : Table) (ps : List Player) : Decidable (potInv t ps) := by
  unfold potInv; infer_instance

/-! ### Concrete scenario inputs (decks are arbitrary distinct card strings;
card identity is irrelevant to the monetary claims below) -/

/-- An 11-card deck prefix: enough for 3 players' holes plus a full board. -/
def deck11 : List String :=
  ["2c", "3c", "4c", "5c", "6c", "7c", "8c", "9c", "Tc", "Jc", "Qc"]

/-- Scenario of claim C5: two fresh 1000-chip players, A in seat 1. -/
def psHU : List Player :=
  [{ sid := "a", name := "A", seat := 1 }, { sid := "b", name := "B", seat := 2 }]

/-- C5 trace, step 1: `StartHand` (A becomes dealer = SB, acts first). -/
def c5start : Table × List Player × Option String := start_hand (initTable 5 10) psHU deck11

/-- C5 trace, step 2: A folds preflop. -/
def c5fold : Table × List Player × Option String := apply_action c5start.1 c5start.2.1 "a" "fold" none

/-- Scenario of claim C1: stacks 200/60/40 in seats 1/2/3. -/
def psC1 : List Player :=
  [{ sid := "a", name := "A", seat := 1, chips := 200 },
   { sid := "b", name := "B", seat := 2, chips := 60 },
   { sid := "c", name := "C", seat := 3, chips := 40 }]

/-- C1 trace: StartHand (dealer 1, SB 2, BB 3, UTG 1). -/
def c1s0 : Table × List Player × Option String := start_hand (initTable 5 10) psC1 deck11
/-- C1 trace: seat 1 raises to 100 preflop. -/
def c1s1 : Table × List Player × Option String := apply_action c1s0.1 c1s0.2.1 "a" "raise" (some 100)
/-- C1 trace: seat 2 calls (all-in for 55). -/
def c1s2 : Table × List Player × Option String := apply_action c1s1.1 c1s1.2.1 "b" "call" none
/-- C1 trace: seat 3 calls (all-in for 30); the flop is dealt and seat 1,
the only player still able to act, is on turn. -/
def c1s3 : Table × List Player × Option String := apply_action c1s2.1 c1s2.2.1 "c" "call" none
/-- C1 trace: seat 1 folds on the flop; the remaining streets auto-run and
the stage reaches showdown. -/
def c1s4 : Table × List Player × Option String := apply_action c1s3.1 c1s3.2.1 "a" "fold" none

/-- A concrete stand-in for `treys.Evaluator().evaluate`: seat 2's dealt
hole cards (`deck11` positions 0-1) score 1, anything else 2, so seat 2
beats seat 3 at showdown. -/
def evalC1 : List String → List String → Int :=
  fun _ hand => if hand = ["2c", "3c"] then 1 else 2

/-- C1 trace: settlement of the showdown. -/
def c1show : Table × List Player × Option String × Option HandResult :=
  finish_showdown evalC1 c1s4.1 c1s4.2.1

/-- Scenario of claim C3's counterexample: three ready players. -/
def roomC3 : Room :=
  { players :=
      [{ sid := "a", name := "A", seat := 1, ready := true },
       { sid := "b", name := "B", seat := 2, ready := true },
       { sid := "c", name := "C", seat := 3, ready := true }],
    table := initTable 5 10 }

/-- C3 trace: the room starts a hand (dealer 1, SB 2, BB 3, UTG 1). -/
def c3s0 : Room × Option String := room_start_hand roomC3 "a" deck11
/-- C3 trace: seat 3 (the big blind, not on turn) disconnects mid-hand and
is removed from the room immediately. -/
def c3s1 : Room := remove_player c3s0.1 "c"
/-- C3 trace: seat 1 calls — a successful `ApplyAction` after which the pot
still contains the removed player's blind. -/
def c3s2 : Table × List Player × Option String :=
  apply_action c3s1.table c3s1.players "a" "call" none

/-- Scenario of claim C4's counterexample: mid-preflop state with seats
2/3/4/5, seat 4 already folded, seat 3 on turn about to raise. -/
def tC4 : Table :=
  { small_blind := 5, big_blind := 10, started := true, stage := .preflop,
    hand_no := 1, pot := 40, dealer_seat := some 2, sb_seat := some 3,
    bb_seat := some 4, utg_seat := some 5, act_seat := some 3,
    current_bet := 10, min_raise := 10, to_act := [3, 5, 2], deck := [] }

/-- C4 counterexample players (dict order by seat). -/
def psC4 : List Player :=
  [{ sid := "b", name := "B", seat := 2, chips := 80, bet := 10, total_bet := 10 },
   { sid := "c", name := "C", seat := 3, chips := 90, bet := 10, total_bet := 10 },
   { sid := "d", name := "D", seat := 4, chips := 70, bet := 10, total_bet := 10, folded := true },
   { sid := "e", name := "E", seat := 5, chips := 60, bet := 10, total_bet := 10 }]

/-- C4 counterexample action: seat 3 raises to 30 (legal, accepted). -/
def c4raise : Table × List Player × Option String :=
  apply_action tC4 psC4 "c" "raise" (some 30)

/-- Scenario of claim C6's counterexample: a seated player with 0 chips,
both ready, stage `waiting`. -/
def roomC6 : Room :=
  { players :=
      [{ sid := "a", name := "A", seat := 1, chips := 0, ready := true },
       { sid := "b", name := "B", seat := 2, ready := true }],
    table := initTable 5 10 }

/-- C6 counterexample: `StartHand` with a 0-chip seated player. -/
def c6zero : Room × Option String := room_start_hand roomC6 "a" deck11

/-- C6 counterexample, part 2: `StartHand` again while the first hand is
still in progress (stage `preflop`). -/
def c6midhand : Room × Option String := room_start_hand c6zero.1 "a" deck11

/-- Scenario of claim C9: the big blind (seat 2) is seated with 0 chips. -/
def psC9 : List Player :=
  [{ sid := "a", name := "A", seat := 1, chips := 1000 },
   { sid := "b", name := "B", seat := 2, chips := 0 }]

/-- C9: `StartHand` with the 0-chip big blind. -/
def c9start : Table × List Player × Option String := start_hand (initTable 5 10) psC9 deck11

/-- The seat-3 player of `psC4` (used to instantiate the raise theorems). -/
def pC4 : Player :=
  { sid := "c", name := "C", seat := 3, chips := 90, bet := 10, total_bet := 10 }

/-- The seat-2 player of `psC9` before posting the big blind. -/
def pC9 : Player := { sid := "b", name := "B", seat := 2, chips := 0 }

/-- The seat-2 player of `psC9` after posting the big blind with 0 chips:
pays 0 and is flagged all-in. -/
def pC9post : Player := { sid := "b", name := "B", seat := 2, chips := 0, all_in := true }

/-! ## Theorems -/

/-! ### Helper lemmas about the list/dict primitives -/

theorem totalBetSum_nil : totalBetSum [] = 0 := rfl

theorem totalBetSum_cons (p : Player) (l : List Player) :
    totalBetSum (p :: l) = p.total_bet + totalBetSum l := by
  simp [totalBetSum]

theorem totalBetSum_map_keep (ps : List Player) (f : Player → Player)
    (hf : ∀ q, (f q).total_bet = q.total_bet) :
    totalBetSum (ps.map f) = totalBetSum ps := by
  induction ps with
  | nil => rfl
  | cons p rest ih => simp [totalBetSum_cons, hf, ih]

theorem totalBetSum_map_zero (ps : List Player) (f : Player → Player)
    (hf : ∀ q, (f q).total_bet = 0) :
    totalBetSum (ps.map f) = 0 := by
  induction ps with
  | nil => rfl
  | cons p rest ih => simp [totalBetSum_cons, hf, ih]

theorem totalBetSum_updPlayer (ps : List Player) (seat : Nat) (f : Player → Player) :
    totalBetSum (updPlayer ps seat f) =
      totalBetSum ps +
        ((findSeat ps seat).map (fun p => (f p).total_bet - p.total_bet)).getD 0 := by
  induction ps with
  | nil => simp [updPlayer, findSeat, totalBetSum_nil]
  | cons p rest ih =>
    by_cases h : p.seat = seat
    · have h1 : updPlayer (p :: rest) seat f = f p :: rest := by simp [updPlayer, h]
      have h2 : findSeat (p :: rest) seat = some p :=
        List.find?_cons_of_pos _ (by simp [h])
      rw [h1, h2, totalBetSum_cons, totalBetSum_cons]
      simp only [Option.map_some', Option.getD_some]
      omega
    · have h1 : updPlayer (p :: rest) seat f = p :: updPlayer rest seat f := by
        simp [updPlayer, h]
      have h2 : findSeat (p :: rest) seat = findSeat rest seat :=
        List.find?_cons_of_neg _ (by simp [h])
      rw [h1, h2, totalBetSum_cons, totalBetSum_cons, ih]
      omega

theorem totalBetSum_updPlayer_keep (ps : List Player) (seat : Nat) (f : Player → Player)
    (hf : ∀ q, (f q).total_bet = q.total_bet) :
    totalBetSum (updPlayer ps seat f) = totalBetSum ps := by
  rw [totalBetSum_updPlayer]
  cases findSeat ps seat <;> simp [hf]

theorem findSeat_updPlayer (ps : List Player) (seat : Nat) (f : Player → Player)
    (hf : ∀ q, (f q).seat = q.seat) :
    findSeat (updPlayer ps seat f) seat = (findSeat ps seat).map f := by
  induction ps with
  | nil => simp [updPlayer, findSeat]
  | cons p rest ih =>
    by_cases h : p.seat = seat
    · simp [updPlayer, findSeat, h, hf]
    · simp only [updPlayer, if_neg h, findSeat, List.find?_cons, decide_eq_true_eq]
      simp only [findSeat] at ih
      simp [h, hf, ih]

/-! ### Preservation of `pot = Σ totalBet` by the engine's steps -/

theorem potInv_post_blind (t : Table) (ps : List Player) (seat : Nat) (a : Int)
    (h : potInv t ps) :
    potInv (post_blind t ps seat a).1 (post_blind t ps seat a).2.1 := by
  unfold post_blind
  cases hfind : findSeat ps seat with
  | none => exact h
  | some p =>
    unfold potInv at h ⊢
    simp only [totalBetSum_updPlayer, hfind, Option.map_some', Option.getD_some]
    omega

theorem pot_start_betting_round (t : Table) (ps : List Player) (first : Nat) :
    (start_betting_round t ps first).pot = t.pot := by
  unfold start_betting_round
  dsimp only
  split <;> rfl

theorem potInv_start_betting_round (t : Table) (ps : List Player) (first : Nat)
    (h : potInv t ps) : potInv (start_betting_round t ps first) ps := by
  unfold potInv at h ⊢
  rw [pot_start_betting_round]
  exact h

theorem potInv_reset_round_bets (t : Table) (ps : List Player) (h : potInv t ps) :
    potInv (reset_round_bets t ps).1 (reset_round_bets t ps).2 := by
  unfold potInv at h ⊢
  unfold reset_round_bets
  dsimp only
  rw [totalBetSum_map_keep ps (fun p => { p with bet := 0 }) (fun q => rfl)]
  exact h

theorem pot_deal_next_stage (t t1 : Table) (h : deal_next_stage t = some t1) :
    t1.pot = t.pot := by
  unfold deal_next_stage at h
  revert h
  cases t.stage <;> intro h <;>
    first
      | exact Option.noConfusion h
      | (injection h with h'; rw [← h'])

theorem potInv_advance_stage (t : Table) (ps : List Player) (h : potInv t ps) :
    potInv (advance_stage t ps).1 (advance_stage t ps).2 := by
  unfold advance_stage
  cases hd : deal_next_stage t with
  | none => exact h
  | some t1 =>
    have hpot : t1.pot = t.pot := pot_deal_next_stage t t1 hd
    dsimp only
    split
    · unfold potInv at h ⊢; rw [hpot]; exact h
    · have h1 : potInv t1 ps := by unfold potInv at h ⊢; rw [hpot]; exact h
      exact potInv_start_betting_round _ _ _ (potInv_reset_round_bets _ _ h1)

theorem potInv_run_out (n : Nat) (t : Table) (ps : List Player) (h : potInv t ps) :
    potInv (run_out n t ps).1 (run_out n t ps).2 := by
  induction n generalizing t ps with
  | zero => exact h
  | succ n ih =>
    unfold run_out
    split
    · dsimp only
      split
      · exact potInv_advance_stage t ps h
      · split
        · exact potInv_advance_stage t ps h
        · exact ih _ _ (potInv_advance_stage t ps h)
    · exact h

theorem potInv_auto_run (t : Table) (ps : List Player) (h : potInv t ps) :
    potInv (auto_run_if_all_in t ps).1 (auto_run_if_all_in t ps).2 := by
  unfold auto_run_if_all_in
  split
  · exact h
  · split
    · exact h
    · exact potInv_run_out 5 t ps h

theorem potInv_after_action (t : Table) (ps : List Player) (h : potInv t ps) :
    potInv (after_action t ps).1 (after_action t ps).2 := by
  unfold after_action
  dsimp only
  split
  · exact potInv_auto_run _ _ (potInv_advance_stage t ps h)
  · exact potInv_auto_run t ps h

theorem potInv_maybe_finish_early (t : Table) (ps : List Player) (h : potInv t ps) :
    potInv (maybe_finish_early t ps).1 (maybe_finish_early t ps).2.1 := by
  unfold maybe_finish_early
  dsimp only
  split
  · unfold potInv at h ⊢
    dsimp only
    rw [totalBetSum_updPlayer_keep ps _
      (fun q => { q with chips := q.chips + t.pot }) (fun q => rfl)]
    exact h
  · exact h

theorem potInv_call_effect (t : Table) (ps : List Player) (seat : Nat) (p : Player)
    (b : Bool) (hfind : (findSeat ps seat).isSome = true) (h : potInv t ps) :
    potInv (call_effect t ps seat p b).1 (call_effect t ps seat p b).2 := by
  unfold call_effect remove_from_to_act
  cases hf : findSeat ps seat with
  | none => rw [hf] at hfind; simp at hfind
  | some q =>
    unfold potInv at h ⊢
    dsimp only
    simp only [totalBetSum_updPlayer, hf, Option.map_some', Option.getD_some]
    omega

theorem potInv_raise_update (t : Table) (ps : List Player) (seat : Nat) (p : Player)
    (R : Int) (hfind : (findSeat ps seat).isSome = true) (h : potInv t ps) :
    potInv (raise_update t ps seat p R).1 (raise_update t ps seat p R).2 := by
  unfold raise_update
  cases hf : findSeat ps seat with
  | none => rw [hf] at hfind; simp at hfind
  | some q =>
    unfold potInv at h ⊢
    dsimp only
    simp only [totalBetSum_updPlayer, hf, Option.map_some', Option.getD_some]
    omega

theorem potInv_raise_rebuild (t : Table) (ps ps1 : List Player) (seat : Nat)
    (h : potInv t ps1) : potInv (raise_rebuild t ps seat) ps1 := by
  unfold raise_rebuild
  dsimp only
  split <;> exact h

theorem potInv_pot_eq (t t' : Table) (ps : List Player) (hp : t'.pot = t.pot)
    (h : potInv t ps) : potInv t' ps := by
  unfold potInv at h ⊢
  rw [hp]
  exact h

theorem potInv_deal_holes (t : Table) (ps : List Player) (order : List Nat)
    (h : potInv t ps) : potInv (deal_holes t ps order).1 (deal_holes t ps order).2 := by
  unfold deal_holes
  induction order generalizing t ps with
  | nil => exact h
  | cons s rest ih =>
    rw [List.foldl_cons]
    apply ih
    unfold potInv at h ⊢
    dsimp only
    rw [totalBetSum_updPlayer_keep ps s
      (fun q => { q with hand := (deal t 2).2 }) (fun q => rfl)]
    exact h

/-- `start_hand` establishes the pot invariant whenever it succeeds. -/
theorem potInv_start_hand (t : Table) (ps : List Player) (d : List String)
    (h : (start_hand t ps d).2.2 = none) :
    potInv (start_hand t ps d).1 (start_hand t ps d).2.1 := by
  unfold start_hand at h ⊢
  dsimp only at h ⊢
  split at h
  · simp at h
  · rename_i hc
    rw [if_neg hc]
    dsimp only
    apply potInv_start_betting_round
    refine potInv_pot_eq _ _ _ rfl ?_
    apply potInv_post_blind
    apply potInv_post_blind
    refine potInv_pot_eq _ _ _ rfl ?_
    apply potInv_deal_holes
    unfold potInv
    show (0 : Int) = _
    rw [totalBetSum_map_zero ps _ (fun q => rfl)]

/-- `apply_action` preserves the pot invariant (on success and on error). -/
theorem potInv_apply_action (t : Table) (ps : List Player) (sid a : String)
    (amt : Option Int) (h : potInv t ps) :
    potInv (apply_action t ps sid a amt).1 (apply_action t ps sid a amt).2.1 := by
  unfold apply_action
  split
  · exact h
  · split
    · exact h
    · dsimp only
      split
      · exact h
      · rename_i p hfind
        have hfs : (findSeat ps ((sid_seat ps sid).getD 0)).isSome = true := by
          rw [hfind]; rfl
        split
        · -- fold
          split
          · apply potInv_maybe_finish_early
            refine potInv_pot_eq _ _ _ rfl ?_
            unfold potInv at h ⊢
            rw [totalBetSum_updPlayer_keep ps _
              (fun q => { q with folded := true, last_act := some "fold" }) (fun q => rfl)]
            exact h
          · apply potInv_after_action
            apply potInv_maybe_finish_early
            refine potInv_pot_eq _ _ _ rfl ?_
            unfold potInv at h ⊢
            rw [totalBetSum_updPlayer_keep ps _
              (fun q => { q with folded := true, last_act := some "fold" }) (fun q => rfl)]
            exact h
        · split
          · -- check
            split
            · exact h
            · apply potInv_after_action
              refine potInv_pot_eq _ _ _ rfl ?_
              unfold potInv at h ⊢
              rw [totalBetSum_updPlayer_keep ps _
                (fun q => { q with last_act := some "check" }) (fun q => rfl)]
              exact h
          · split
            · -- call
              exact potInv_after_action _ _ (potInv_call_effect t ps _ p false hfs h)
            · split
              · -- raise
                split
                · exact h
                · split
                  · exact potInv_after_action _ _ (potInv_call_effect t ps _ p true hfs h)
                  · split
                    · exact h
                    · split
                      · exact h
                      · apply potInv_after_action
                        apply potInv_raise_rebuild
                        exact potInv_raise_update t ps _ p _ hfs h
              · exact h

/-! ### Preservation of `action_seat = head of to_act` by the engine's steps -/

theorem headInv_start_betting_round (t : Table) (ps : List Player) (first : Nat) :
    headInv (start_betting_round t ps first) := by
  unfold start_betting_round headInv
  dsimp only
  split <;> rfl

theorem headInv_remove_from_to_act (t : Table) (seat : Nat) :
    headInv (remove_from_to_act t seat) := rfl

theorem headInv_maybe_finish_early (t : Table) (ps : List Player) (h : headInv t) :
    headInv (maybe_finish_early t ps).1 := by
  unfold maybe_finish_early
  dsimp only
  split
  · rfl
  · exact h

theorem act_deal_next_stage (t t1 : Table) (h : deal_next_stage t = some t1) :
    t1.act_seat = t.act_seat ∧ t1.to_act = t.to_act := by
  unfold deal_next_stage at h
  revert h
  cases t.stage <;> intro h <;>
    first
      | exact Option.noConfusion h
      | (injection h with h'; rw [← h']; exact ⟨rfl, rfl⟩)

theorem headInv_advance_stage (t : Table) (ps : List Player) (h : headInv t) :
    headInv (advance_stage t ps).1 := by
  unfold advance_stage
  cases hd : deal_next_stage t with
  | none => exact h
  | some t1 =>
    dsimp only
    split
    · unfold headInv at h ⊢
      rw [(act_deal_next_stage t t1 hd).1, (act_deal_next_stage t t1 hd).2]
      exact h
    · exact headInv_start_betting_round _ _ _

theorem headInv_run_out (n : Nat) (t : Table) (ps : List Player) (h : headInv t) :
    headInv (run_out n t ps).1 := by
  induction n generalizing t ps with
  | zero => exact h
  | succ n ih =>
    unfold run_out
    split
    · dsimp only
      split
      · exact headInv_advance_stage t ps h
      · split
        · exact headInv_advance_stage t ps h
        · exact ih _ _ rfl
    · exact h

theorem headInv_auto_run (t : Table) (ps : List Player) (h : headInv t) :
    headInv (auto_run_if_all_in t ps).1 := by
  unfold auto_run_if_all_in
  split
  · exact h
  · split
    · exact h
    · exact headInv_run_out 5 t ps h

theorem headInv_after_action (t : Table) (ps : List Player) (h : headInv t) :
    headInv (after_action t ps).1 := by
  unfold after_action
  dsimp only
  split
  · exact headInv_auto_run _ _ (headInv_advance_stage t ps h)
  · exact headInv_auto_run t ps h

theorem headInv_call_effect (t : Table) (ps : List Player) (seat : Nat) (p : Player)
    (b : Bool) : headInv (call_effect t ps seat p b).1 :=
  headInv_remove_from_to_act _ _

theorem headInv_raise_rebuild (t : Table) (ps : List Player) (seat : Nat) :
    headInv (raise_rebuild t ps seat) := by
  unfold raise_rebuild
  dsimp only
  split
  · rfl
  · rfl

/-- `apply_action` re-establishes / preserves the head invariant. -/
theorem headInv_apply_action (t : Table) (ps : List Player) (sid a : String)
    (amt : Option Int) (h : headInv t) :
    headInv (apply_action t ps sid a amt).1 := by
  unfold apply_action
  split
  · exact h
  · split
    · exact h
    · dsimp only
      split
      · exact h
      · split
        · -- fold
          split
          · exact headInv_maybe_finish_early _ _ (headInv_remove_from_to_act _ _)
          · exact headInv_after_action _ _
              (headInv_maybe_finish_early _ _ (headInv_remove_from_to_act _ _))
        · split
          · -- check
            split
            · exact h
            · exact headInv_after_action _ _ (headInv_remove_from_to_act _ _)
          · split
            · -- call
              exact headInv_after_action _ _ (headInv_call_effect t ps _ _ false)
            · split
              · -- raise
                split
                · exact h
                · split
                  · exact headInv_after_action _ _ (headInv_call_effect t ps _ _ true)
                  · split
                    · exact h
                    · split
                      · exact h
                      · exact headInv_after_action _ _ (headInv_raise_rebuild _ _ _)
              · exact h

/-- `start_hand` establishes the head invariant on success and leaves the
state alone on failure. -/
theorem headInv_start_hand (t : Table) (ps : List Player) (d : List String)
    (h : headInv t) : headInv (start_hand t ps d).1 := by
  unfold start_hand
  dsimp only
  split
  · exact h
  · exact headInv_start_betting_round _ _ _

/-! ### The accepted-raise path through `apply_action` -/

theorem stage_ne_waiting (s : Stage) (h : s.isStreet = true) : s ≠ .waiting := by
  cases s <;> simp_all [Stage.isStreet]

theorem lower_strip_raise : lower_strip "raise" = "raise" := by decide

theorem ensure_turn_pass (t : Table) (ps : List Player) (sid : String) (p : Player)
    (hturn : t.act_seat = some p.seat)
    (hfind : ps.find? (fun q => q.sid = sid) = some p)
    (hfs : findSeat ps p.seat = some p)
    (hnf : p.folded = false) :
    ensure_turn t ps sid = none := by
  unfold ensure_turn sid_seat
  simp only [hturn, hfind, Option.map_some']
  rw [if_neg (by simp)]
  simp only [hfs, hnf]
  rfl

theorem sid_seat_getD (ps : List Player) (sid : String) (p : Player)
    (hfind : ps.find? (fun q => q.sid = sid) = some p) :
    (sid_seat ps sid).getD 0 = p.seat := by
  unfold sid_seat
  rw [hfind]
  rfl

/-- On the accepted-raise path, `apply_action` is the raise update, the
`to_act` rebuild, and the common tail, in that order. -/
theorem apply_action_raise_accept
    (t : Table) (ps : List Player) (sid : String) (p : Player) (R : Int)
    (hstart : t.started = true) (hstage : t.stage.isStreet = true)
    (hfind : ps.find? (fun q => q.sid = sid) = some p)
    (hturn : t.act_seat = some p.seat)
    (hfs : findSeat ps p.seat = some p)
    (hnf : p.folded = false)
    (hlt : t.current_bet < R) (hle : R ≤ p.bet + p.chips)
    (hacc : ¬(R - t.current_bet < t.min_raise ∧ ¬R = p.bet + p.chips)) :
    apply_action t ps sid "raise" (some R) =
      ((after_action
          (raise_rebuild (raise_update t ps p.seat p R).1
            (raise_update t ps p.seat p R).2 p.seat)
          (raise_update t ps p.seat p R).2).1,
       (after_action
          (raise_rebuild (raise_update t ps p.seat p R).1
            (raise_update t ps p.seat p R).2 p.seat)
          (raise_update t ps p.seat p R).2).2,
       none) := by
  unfold apply_action
  rw [if_neg (by rw [hstart]; simp [stage_ne_waiting t.stage hstage])]
  simp only [ensure_turn_pass t ps sid p hturn hfind hfs hnf]
  simp only [sid_seat_getD ps sid p hfind, hfs]
  simp only [lower_strip_raise]
  rw [if_neg (by decide), if_neg (by decide), if_neg (by decide), if_pos trivial]
  rw [if_neg (by omega), if_neg (by omega), if_neg hacc]

/-- On the rejected-raise path (below minimum increment and not all-in),
`apply_action` raises `BelowMinRaise` and returns the inputs. -/
theorem apply_action_raise_reject
    (t : Table) (ps : List Player) (sid : String) (p : Player) (R : Int)
    (hstart : t.started = true) (hstage : t.stage.isStreet = true)
    (hfind : ps.find? (fun q => q.sid = sid) = some p)
    (hturn : t.act_seat = some p.seat)
    (hfs : findSeat ps p.seat = some p)
    (hnf : p.folded = false)
    (hlt : t.current_bet < R) (hle : R ≤ p.bet + p.chips)
    (hrej : R - t.current_bet < t.min_raise ∧ ¬R = p.bet + p.chips) :
    apply_action t ps sid "raise" (some R) =
      (t, ps, some ("最小加注增量为 " ++ toString t.min_raise)) := by
  unfold apply_action
  rw [if_neg (by rw [hstart]; simp [stage_ne_waiting t.stage hstage])]
  simp only [ensure_turn_pass t ps sid p hturn hfind hfs hnf]
  simp only [sid_seat_getD ps sid p hfind, hfs]
  simp only [lower_strip_raise]
  rw [if_neg (by decide), if_neg (by decide), if_neg (by decide), if_pos trivial]
  rw [if_neg (by omega), if_neg (by omega), if_pos hrej]

/-- When the rebuilt `to_act` is non-empty and the action seat is set, the
common tail of `apply_action` (stage advance + auto-run-out) is a no-op. -/
theorem after_action_noop (t : Table) (ps : List Player) (h1 : t.to_act ≠ [])
    (h2 : t.act_seat ≠ none) : after_action t ps = (t, ps) := by
  unfold after_action
  dsimp only
  rw [if_neg (show ¬(t.to_act = [] ∧ t.started = true ∧ t.stage.isStreet = true) from
    fun hc => h1 hc.1)]
  show auto_run_if_all_in t ps = (t, ps)
  unfold auto_run_if_all_in
  rw [if_pos h2]

/-- C2 (confirmed): with `currentBet = C`, `minRaise = M` and a raise-to
`R` with `C < R ≤ p.bet + p.chips`, played by the player on turn: the
raise is accepted iff `C + M ≤ R` or `R = p.bet + p.chips` (all-in), and
otherwise fails with the BelowMinRaise error; and the raise handling
itself (game.py lines 381-393, `raise_update`, before any round-closure
stage advance) sets `minRaise = R − C` and `currentBet = R` whenever
`R > C + M`. -/
theorem C2_minimum_raise_law :
    ∀ (t : Table) (ps : List Player) (sid : String) (p : Player) (R : Int),
      t.started = true → t.stage.isStreet = true →
      ps.find? (fun q => q.sid = sid) = some p →
      t.act_seat = some p.seat →
      findSeat ps p.seat = some p →
      p.folded = false →
      t.current_bet < R → R ≤ p.bet + p.chips →
      (((apply_action t ps sid "raise" (some R)).2.2 = none) ↔
        (t.current_bet + t.min_raise ≤ R ∨ R = p.bet + p.chips)) ∧
      ((R - t.current_bet < t.min_raise ∧ ¬R = p.bet + p.chips) →
        (apply_action t ps sid "raise" (some R)).2.2 =
          some ("最小加注增量为 " ++ toString t.min_raise)) ∧
      (t.current_bet + t.min_raise < R →
        (raise_update t ps p.seat p R).1.min_raise = R - t.current_bet ∧
        (raise_update t ps p.seat p R).1.current_bet = R) := by
  intro t ps sid p R hstart hstage hfind hturn hfs hnf hlt hle
  refine ⟨?_, ?_, ?_⟩
  · by_cases hacc : R - t.current_bet < t.min_raise ∧ ¬R = p.bet + p.chips
    · rw [apply_action_raise_reject t ps sid p R hstart hstage hfind hturn hfs hnf hlt hle hacc]
      constructor
      · intro h; exact absurd h (by simp)
      · intro hv
        exfalso
        rcases hv with hv | hv
        · have := hacc.1; omega
        · exact hacc.2 hv
    · rw [apply_action_raise_accept t ps sid p R hstart hstage hfind hturn hfs hnf hlt hle hacc]
      constructor
      · intro _
        rcases not_and_or.mp hacc with h | h
        · left; omega
        · right; exact not_not.mp h
      · intro _; rfl
  · intro hrej
    rw [apply_action_raise_reject t ps sid p R hstart hstage hfind hturn hfs hnf hlt hle hrej]
  · intro hgt
    unfold raise_update
    dsimp only
    refine ⟨?_, rfl⟩
    exact max_eq_right (by omega)

/-- Witness for C2: seat 3 of the C4 scenario raising from `currentBet =
10`, `minRaise = 10` to 30 — a legal raise that is accepted and would set
`minRaise = 20`, `currentBet = 30`. -/
theorem C2_minimum_raise_witness :
    (((apply_action tC4 psC4 "c" "raise" (some 30)).2.2 = none) ↔
      (tC4.current_bet + tC4.min_raise ≤ 30 ∨ (30 : Int) = pC4.bet + pC4.chips)) ∧
    ((30 - tC4.current_bet < tC4.min_raise ∧ ¬(30 : Int) = pC4.bet + pC4.chips) →
      (apply_action tC4 psC4 "c" "raise" (some 30)).2.2 =
        some ("最小加注增量为 " ++ toString tC4.min_raise)) ∧
    (tC4.current_bet + tC4.min_raise < 30 →
      (raise_update tC4 psC4 pC4.seat pC4 30).1.min_raise = 30 - tC4.current_bet ∧
      (raise_update tC4 psC4 pC4.seat pC4 30).1.current_bet = 30) :=
  C2_minimum_raise_law tC4 psC4 "c" pC4 30 rfl rfl (by decide) rfl (by decide) rfl
    (by decide) (by decide)

theorem raise_rebuild_to_act (t : Table) (ps : List Player) (seat : Nat) :
    (raise_rebuild t ps seat).to_act = amended_to_act ps seat := by
  unfold raise_rebuild amended_to_act eligAfterRaise seat_order
  dsimp only
  by_cases hsca :
      (List.filter (fun pl => pl.seat ≠ seat && !pl.folded && !pl.all_in) ps).map (·.seat) = []
  · rw [if_pos hsca, hsca]
    rfl
  · rw [if_neg hsca, if_neg hsca]
    dsimp only
    by_cases hmem : next_seat (pysort (seatsOf ps)) seat ∈
        pysort ((List.filter (fun pl => pl.seat ≠ seat && !pl.folded && !pl.all_in) ps).map (·.seat))
    · rw [if_pos hmem, if_pos hmem]
    · rw [if_neg hmem, if_neg hmem]
      simp

theorem raise_rebuild_perm (t : Table) (ps : List Player) (seat : Nat) :
    (raise_rebuild t ps seat).to_act.Perm (eligAfterRaise ps seat) := by
  rw [raise_rebuild_to_act]
  unfold amended_to_act
  dsimp only
  split
  · exact (List.perm_append_comm).trans (by rw [List.take_append_drop])
  · exact List.Perm.refl _

/-! ### The per-layer payout distribution (claim C8) -/

theorem bumpPay_cons (k : Nat) (v : Int) (rest : List (Nat × Int)) (s : Nat) (d : Int) :
    bumpPay ((k, v) :: rest) s d =
      if k = s then (k, v + d) :: rest else (k, v) :: bumpPay rest s d := rfl

theorem lookupPay_cons (k : Nat) (v : Int) (rest : List (Nat × Int)) (s : Nat) :
    lookupPay ((k, v) :: rest) s = if k = s then v else lookupPay rest s := by
  unfold lookupPay
  by_cases h : k = s
  · rw [List.find?_cons_of_pos _ (by simp [h]), if_pos h]
    rfl
  · rw [List.find?_cons_of_neg _ (by simp [h]), if_neg h]

theorem keys_bumpPay (pays : List (Nat × Int)) (k : Nat) (d : Int) :
    (bumpPay pays k d).map (·.1) = pays.map (·.1) := by
  induction pays with
  | nil => rfl
  | cons kv rest ih =>
    rcases kv with ⟨k', v⟩
    rw [bumpPay_cons]
    by_cases h : k' = k
    · rw [if_pos h]
      simp
    · rw [if_neg h]
      simp [ih]

theorem lookupPay_bump_ne (pays : List (Nat × Int)) (k s : Nat) (d : Int) (h : ¬k = s) :
    lookupPay (bumpPay pays k d) s = lookupPay pays s := by
  induction pays with
  | nil => rfl
  | cons kv rest ih =>
    rcases kv with ⟨k', v⟩
    rw [bumpPay_cons]
    by_cases hk : k' = k
    · rw [if_pos hk, lookupPay_cons, lookupPay_cons, if_neg (by omega), if_neg (by omega)]
    · rw [if_neg hk, lookupPay_cons, lookupPay_cons]
      by_cases hs : k' = s
      · rw [if_pos hs, if_pos hs]
      · rw [if_neg hs, if_neg hs, ih]

theorem lookupPay_bump_self (pays : List (Nat × Int)) (s : Nat) (d : Int)
    (h : s ∈ pays.map (·.1)) :
    lookupPay (bumpPay pays s d) s = lookupPay pays s + d := by
  induction pays with
  | nil => simp at h
  | cons kv rest ih =>
    rcases kv with ⟨k', v⟩
    rw [bumpPay_cons]
    by_cases hk : k' = s
    · rw [if_pos hk, lookupPay_cons, lookupPay_cons, if_pos hk, if_pos hk]
    · rw [if_neg hk, lookupPay_cons, lookupPay_cons, if_neg hk, if_neg hk]
      apply ih
      simp only [List.map_cons, List.mem_cons] at h
      rcases h with h | h
      · exact absurd h.symm hk
      · exact h

theorem keys_foldl_share (winners : List Nat) (pays : List (Nat × Int)) (share : Int) :
    ((winners.foldl (fun acc w => bumpPay acc w share) pays).map (·.1)) = pays.map (·.1) := by
  induction winners generalizing pays with
  | nil => rfl
  | cons w rest ih => rw [List.foldl_cons, ih, keys_bumpPay]

theorem lookupPay_foldl_share_not_mem (winners : List Nat) (pays : List (Nat × Int))
    (share : Int) (s : Nat) (h : s ∉ winners) :
    lookupPay (winners.foldl (fun acc w => bumpPay acc w share) pays) s =
      lookupPay pays s := by
  induction winners generalizing pays with
  | nil => rfl
  | cons w rest ih =>
    rw [List.foldl_cons, ih _ (fun hr => h (List.mem_cons_of_mem _ hr))]
    exact lookupPay_bump_ne pays w s share (fun hw => h (hw ▸ List.mem_cons_self _ _))

theorem lookupPay_foldl_share_mem (winners : List Nat) (pays : List (Nat × Int))
    (share : Int) (s : Nat) (hnd : winners.Nodup) (hs : s ∈ winners)
    (hk : s ∈ pays.map (·.1)) :
    lookupPay (winners.foldl (fun acc w => bumpPay acc w share) pays) s =
      lookupPay pays s + share := by
  induction winners generalizing pays with
  | nil => cases hs
  | cons w rest ih =>
    rw [List.foldl_cons]
    rcases List.mem_cons.mp hs with he | hr
    · subst he
      rw [lookupPay_foldl_share_not_mem rest _ share s (List.nodup_cons.mp hnd).1]
      exact lookupPay_bump_self pays s share hk
    · rw [ih (bumpPay pays w share) (List.nodup_cons.mp hnd).2 hr
        (by rw [keys_bumpPay]; exact hk)]
      rw [lookupPay_bump_ne pays w s share
        (fun hw => (List.nodup_cons.mp hnd).1 (hw ▸ hr))]

theorem add_remainder_succ (pays : List (Nat × Int)) (sorted : List Nat) (r : Nat) :
    add_remainder pays sorted (r + 1) =
      bumpPay (add_remainder pays sorted r) (sorted.getD (r % sorted.length) 0) 1 := by
  unfold add_remainder
  rw [List.range_succ, List.foldl_append, List.foldl_cons, List.foldl_nil]

theorem keys_add_remainder (pays : List (Nat × Int)) (sorted : List Nat) (r : Nat) :
    (add_remainder pays sorted r).map (·.1) = pays.map (·.1) := by
  induction r with
  | zero => rfl
  | succ n ih => rw [add_remainder_succ, keys_bumpPay, ih]

theorem getD_not_mem_take (l : List Nat) (hnd : l.Nodup) (r : Nat) (hr : r < l.length) :
    l.getD r 0 ∉ l.take r := by
  induction l generalizing r with
  | nil => simp at hr
  | cons x xs ih =>
    cases r with
    | zero => simp
    | succ n =>
      have hn : n < xs.length := by simpa using hr
      rw [List.take_succ_cons]
      intro hmem
      rcases List.mem_cons.mp hmem with he | hm
      · have hx : xs.getD n 0 ∈ xs := by
          rw [List.getD_eq_getElem?_getD, List.getElem?_eq_getElem hn, Option.getD_some]
          exact List.getElem_mem hn
        rw [show (x :: xs).getD (n + 1) 0 = xs.getD n 0 from rfl] at he
        exact (List.nodup_cons.mp hnd).1 (he ▸ hx)
      · exact ih (List.nodup_cons.mp hnd).2 n hn hm

theorem lookupPay_add_remainder (pays : List (Nat × Int)) (sorted : List Nat)
    (hnd : sorted.Nodup) (hkeys : ∀ x ∈ sorted, x ∈ pays.map (·.1)) :
    ∀ (r : Nat) (s : Nat), r ≤ sorted.length →
      lookupPay (add_remainder pays sorted r) s =
        lookupPay pays s + (if s ∈ sorted.take r then 1 else 0) := by
  intro r
  induction r with
  | zero => intro s _; simp [add_remainder]
  | succ n ih =>
    intro s hr
    have hn : n < sorted.length := by omega
    rw [add_remainder_succ, Nat.mod_eq_of_lt hn]
    have hgetd : sorted.getD n 0 = sorted[n] := by
      rw [List.getD_eq_getElem?_getD, List.getElem?_eq_getElem hn, Option.getD_some]
    have hemem : sorted.getD n 0 ∈ sorted := by
      rw [hgetd]; exact List.getElem_mem hn
    have htake : sorted.take (n + 1) = sorted.take n ++ [sorted[n]] := by
      rw [List.take_succ, List.getElem?_eq_getElem hn]
      rfl
    by_cases hse : sorted.getD n 0 = s
    · rw [hse]
      rw [lookupPay_bump_self _ _ _
        (by rw [keys_add_remainder]; exact hse ▸ hkeys _ hemem)]
      rw [ih s (by omega)]
      have hs_take : s ∉ sorted.take n := by
        intro hmem
        rw [← hse] at hmem
        exact getD_not_mem_take sorted hnd n hn hmem
      have hs_take1 : s ∈ sorted.take (n + 1) := by
        rw [htake]
        apply List.mem_append_right
        rw [← hse, hgetd]
        exact List.mem_singleton_self _
      rw [if_neg hs_take, if_pos hs_take1]
      omega
    · rw [lookupPay_bump_ne _ _ _ _ hse, ih s (by omega)]
      by_cases hm : s ∈ sorted.take n
      · rw [if_pos hm, if_pos (by rw [htake]; exact List.mem_append_left _ hm)]
      · rw [if_neg hm, if_neg ?_]
        rw [htake]
        intro hmm
        rcases List.mem_append.mp hmm with h1 | h1
        · exact hm h1
        · rw [List.mem_singleton] at h1
          exact hse (by rw [hgetd, h1])

/-- C8 (confirmed): in every side-pot layer awarded by `finish_showdown`
(the per-layer step `award_layer` used by `settle_levels`), each tied
winner receives `potAmount // |winners|` (floor division, `Int.fdiv`) and
the remaining `potAmount mod |winners|` chips go one chip each to the
first `potAmount mod |winners|` winners in ascending seat order
(`pysort winners`), while non-winners receive nothing from the layer.
The award is therefore a deterministic function of the winning seats and
the layer amount — and, through `settle_levels`, of scores, `totalBet`
values and seats only. -/
theorem C8_layer_payout_formula :
    ∀ (pays : List (Nat × Int)) (winners : List Nat) (pot_amount : Int),
      winners ≠ [] → winners.Nodup → 0 ≤ pot_amount →
      (∀ x ∈ winners, x ∈ pays.map (·.1)) →
      ((∀ s ∈ winners,
        lookupPay (award_layer pays winners pot_amount) s =
          lookupPay pays s + Int.fdiv pot_amount winners.length +
            (if s ∈ (pysort winners).take (pot_amount % (winners.length : Int)).toNat
             then 1 else 0)) ∧
      (∀ s, s ∉ winners →
        lookupPay (award_layer pays winners pot_amount) s = lookupPay pays s)) := by
  intro pays winners pot hne hnd hpot hkeys
  have hn : 0 < winners.length := List.length_pos.mpr hne
  have hnz : (winners.length : Int) ≠ 0 := by exact_mod_cast hn.ne'
  have hfd : Int.fdiv pot (winners.length : Int) = pot / (winners.length : Int) :=
    Int.fdiv_eq_ediv pot (by exact_mod_cast Nat.zero_le _)
  have hrem : pot - Int.fdiv pot (winners.length : Int) * (winners.length : Int) =
      pot % (winners.length : Int) := by
    rw [hfd, Int.emod_def]
    ring
  have hrem_nonneg : 0 ≤ pot % (winners.length : Int) := Int.emod_nonneg pot hnz
  have hrem_lt : pot % (winners.length : Int) < (winners.length : Int) :=
    Int.emod_lt_of_pos pot (by exact_mod_cast hn)
  have hsortnd : (pysort winners).Nodup :=
    ((List.perm_insertionSort (· ≤ ·) winners).nodup_iff).mpr hnd
  have hsortlen : (pysort winners).length = winners.length :=
    (List.perm_insertionSort (· ≤ ·) winners).length_eq
  have hkeys1 : ∀ x ∈ pysort winners,
      x ∈ (winners.foldl (fun acc w => bumpPay acc w (Int.fdiv pot winners.length)) pays).map (·.1) := by
    intro x hx
    rw [keys_foldl_share]
    exact hkeys x ((List.perm_insertionSort (· ≤ ·) winners).mem_iff.mp hx)
  have hrle : (pot % (winners.length : Int)).toNat ≤ (pysort winners).length := by
    rw [hsortlen]
    omega
  unfold award_layer
  dsimp only
  constructor
  · intro s hs
    have hkmem : s ∈ pays.map (·.1) := hkeys s hs
    split
    · rename_i hz
      rw [hrem] at hz ⊢
      rw [lookupPay_add_remainder _ _ hsortnd hkeys1 _ s hrle]
      rw [lookupPay_foldl_share_mem winners pays _ s hnd hs hkmem]
    · rename_i hz
      rw [hrem] at hz
      have hz0 : pot % (winners.length : Int) = 0 := by
        by_contra hc
        exact hz hc
      rw [lookupPay_foldl_share_mem winners pays _ s hnd hs hkmem, hz0]
      simp
  · intro s hs
    have hsort : s ∉ pysort winners :=
      fun hx => hs ((List.perm_insertionSort (· ≤ ·) winners).mem_iff.mp hx)
    split
    · rw [hrem]
      rw [lookupPay_add_remainder _ _ hsortnd hkeys1 _ s hrle]
      rw [lookupPay_foldl_share_not_mem winners pays _ s hs]
      rw [if_neg (fun hx => hsort (List.take_subset _ _ hx))]
      omega
    · exact lookupPay_foldl_share_not_mem winners pays _ s hs

/-- Witness for C8: a 100-chip layer split three ways — shares of 33 and
the 1 remaining chip to the lowest winning seat. -/
theorem C8_layer_payout_witness :
    lookupPay (award_layer [(1, 0), (2, 0), (3, 0)] [3, 1, 2] 100) 1 =
      lookupPay [(1, 0), (2, 0), (3, 0)] 1 + Int.fdiv 100 ([3, 1, 2] : List Nat).length +
        (if 1 ∈ (pysort [3, 1, 2]).take ((100 : Int) % (([3, 1, 2] : List Nat).length : Int)).toNat
         then 1 else 0) :=
  (C8_layer_payout_formula [(1, 0), (2, 0), (3, 0)] [3, 1, 2] 100 (by decide) (by decide)
    (by decide) (by decide)).1 1 (by decide)

/-- C1 (code bug): a reachable hand in which settlement does **not** pay
out the whole pot.  Stacks 200/60/40; seat 1 raises to 100 preflop, seats
2 and 3 call all-in, the remaining streets would auto-run, but seat 1 —
the only player still able to act — folds on the flop.  At showdown the
100-contribution layer has no eligible contender and is silently skipped:
the payouts sum to 160 while the pot is 200, and the 40 chips seat 1
committed above the 60 level vanish (total chips drop from 300 to 260),
contradicting `Σ payouts = pot` and conservation of chips. -/
theorem C1_settlement_loses_chips :
    c1s0.2.2 = none ∧ c1s1.2.2 = none ∧ c1s2.2.2 = none ∧ c1s3.2.2 = none ∧
    c1s4.2.2 = none ∧ c1s4.1.stage = Stage.showdown ∧
    c1show.2.2.1 = none ∧
    c1s4.1.pot = 200 ∧
    (c1show.2.2.2.map (fun r => (r.payouts.map (·.2)).sum)).getD 0 = 160 ∧
    chipsSum psC1 = 300 ∧ chipsSum c1show.2.1 = 260 := by
  decide

/-- C3 (amended): the pot equals Σ `totalBet` over the player map the hand
is being played with: `Table.start_hand` establishes the invariant
whenever it succeeds, and `Table.apply_action` preserves it (successful
calls move chips into `pot` and `total_bet` in lockstep; failing calls
leave the state unchanged).  The amendment is forced by
`GameRoom.remove_player`, which can delete a contributor mid-hand — see
the counterexample. -/
theorem C3_pot_invariant_amended :
    (∀ (t : Table) (ps : List Player) (d : List String),
      (start_hand t ps d).2.2 = none →
      potInv (start_hand t ps d).1 (start_hand t ps d).2.1) ∧
    (∀ (t : Table) (ps : List Player) (sid a : String) (amt : Option Int),
      potInv t ps →
      potInv (apply_action t ps sid a amt).1 (apply_action t ps sid a amt).2.1) :=
  ⟨potInv_start_hand, potInv_apply_action⟩

/-- Witness for C3: the invariant instantiated on the concrete heads-up
hand (`pot = 15 = 5 + 10` after the blinds, and still balanced after the
fold that ends the hand). -/
theorem C3_pot_invariant_witness :
    potInv c5start.1 c5start.2.1 ∧ potInv c5fold.1 c5fold.2.1 :=
  ⟨C3_pot_invariant_amended.1 (initTable 5 10) psHU deck11 (by decide),
   C3_pot_invariant_amended.2 c5start.1 c5start.2.1 "a" "fold" none (by decide)⟩

/-- C10 (confirmed): after `StartHand` and after every `ApplyAction`
(including the stage advances and the auto-run-out the action triggers),
`action_seat` is the head of `to_act` — `some` of its first element when
the list is non-empty and `none` when it is empty.  Every site that
rewrites `to_act` re-derives `action_seat` from it, and error paths leave
the state unchanged, so the invariant only needs itself as input. -/
theorem C10_action_seat_is_head :
    (∀ (t : Table) (ps : List Player) (d : List String),
      headInv t → headInv (start_hand t ps d).1) ∧
    (∀ (t : Table) (ps : List Player) (sid a : String) (amt : Option Int),
      headInv t → headInv (apply_action t ps sid a amt).1) :=
  ⟨headInv_start_hand, headInv_apply_action⟩

/-- Witness for C10: instantiated on the concrete 3-handed hand of the C1
trace (after `StartHand` and after the first raise). -/
theorem C10_action_seat_witness : headInv c1s0.1 ∧ headInv c1s1.1 :=
  ⟨C10_action_seat_is_head.1 (initTable 5 10) psC1 deck11 (by decide),
   C10_action_seat_is_head.2 c1s0.1 c1s0.2.1 "a" "raise" (some 100) (by decide)⟩

/-- C4 (amended): after an accepted raise the rebuilt `to_act` consists of
exactly the non-folded, non-all-in players other than the raiser (a
permutation of that sorted seat set), and `action_seat` is its head
(`none` when empty); its order is ascending **starting from the seat
immediately after the raiser among all seats when that seat is itself
eligible, and otherwise from the lowest eligible seat** (`amended_to_act`)
— not from the first eligible seat after the raiser as claimed.  The
second conjunct ties this to `apply_action`: an accepted raise whose
rebuilt `to_act` is non-empty ends with exactly that `to_act` and
`action_seat`. -/
theorem C4_to_act_rebuild_amended :
    (∀ (t : Table) (ps : List Player) (seat : Nat),
      (raise_rebuild t ps seat).to_act = amended_to_act ps seat ∧
      (raise_rebuild t ps seat).to_act.Perm (eligAfterRaise ps seat) ∧
      (raise_rebuild t ps seat).act_seat = (raise_rebuild t ps seat).to_act.head?) ∧
    (∀ (t : Table) (ps : List Player) (sid : String) (p : Player) (R : Int),
      t.started = true → t.stage.isStreet = true →
      ps.find? (fun q => q.sid = sid) = some p →
      t.act_seat = some p.seat →
      findSeat ps p.seat = some p →
      p.folded = false →
      t.current_bet < R → R ≤ p.bet + p.chips →
      ¬(R - t.current_bet < t.min_raise ∧ ¬R = p.bet + p.chips) →
      (raise_rebuild (raise_update t ps p.seat p R).1
        (raise_update t ps p.seat p R).2 p.seat).to_act ≠ [] →
      (apply_action t ps sid "raise" (some R)).1.to_act =
        (raise_rebuild (raise_update t ps p.seat p R).1
          (raise_update t ps p.seat p R).2 p.seat).to_act ∧
      (apply_action t ps sid "raise" (some R)).1.act_seat =
        (raise_rebuild (raise_update t ps p.seat p R).1
          (raise_update t ps p.seat p R).2 p.seat).act_seat) := by
  constructor
  · intro t ps seat
    exact ⟨raise_rebuild_to_act t ps seat, raise_rebuild_perm t ps seat,
      headInv_raise_rebuild t ps seat⟩
  · intro t ps sid p R hstart hstage hfind hturn hfs hnf hlt hle hacc hne
    have hact : (raise_rebuild (raise_update t ps p.seat p R).1
        (raise_update t ps p.seat p R).2 p.seat).act_seat ≠ none := by
      have hx := headInv_raise_rebuild (raise_update t ps p.seat p R).1
        (raise_update t ps p.seat p R).2 p.seat
      unfold headInv at hx
      rw [hx]
      intro hcontra
      rw [List.head?_eq_none_iff] at hcontra
      exact hne hcontra
    rw [apply_action_raise_accept t ps sid p R hstart hstage hfind hturn hfs hnf hlt hle hacc]
    dsimp only
    rw [after_action_noop _ _ hne hact]
    exact ⟨rfl, rfl⟩

/-- Witness for C4's amended theorem: the concrete accepted raise of the
counterexample scenario (seat 3 raising to 30). -/
theorem C4_to_act_rebuild_witness :
    (apply_action tC4 psC4 "c" "raise" (some 30)).1.to_act =
      (raise_rebuild (raise_update tC4 psC4 pC4.seat pC4 30).1
        (raise_update tC4 psC4 pC4.seat pC4 30).2 pC4.seat).to_act ∧
    (apply_action tC4 psC4 "c" "raise" (some 30)).1.act_seat =
      (raise_rebuild (raise_update tC4 psC4 pC4.seat pC4 30).1
        (raise_update tC4 psC4 pC4.seat pC4 30).2 pC4.seat).act_seat :=
  C4_to_act_rebuild_amended.2 tC4 psC4 "c" pC4 30 rfl rfl (by decide) rfl (by decide) rfl
    (by decide) (by decide) (by decide) (by decide)

/-- C3 counterexample: `GameRoom.remove_player` deletes a mid-hand player
whose blind still funds the pot, after which a perfectly successful
`ApplyAction` leaves `pot = 25` but `Σ totalBet = 15` over the room's
players — the claimed invariant fails during a hand. -/
theorem C3_removed_player_breaks_pot_invariant :
    c3s0.2 = none ∧ c3s2.2.2 = none ∧
    c3s2.1.pot = 25 ∧ totalBetSum c3s2.2.1 = 15 ∧
    ¬ potInv c3s2.1 c3s2.2.1 := by
  decide

/-- C4 counterexample: seat 3 raises to 30 while seat 4 (the next seat
after the raiser) is already folded and seats 2 and 5 can still act.  The
claim demands the cyclic order starting from the first eligible seat
after the raiser, `[5, 2]`; the code rebuilt `to_act = [2, 5]` (it falls
back to index 0 of the sorted list whenever the seat immediately after
the raiser is not itself eligible). -/
theorem C4_to_act_order_counterexample :
    c4raise.2.2 = none ∧
    c4raise.1.to_act = [2, 5] ∧ c4raise.1.act_seat = some 2 ∧
    claimed_to_act c4raise.2.1 3 = [5, 2] ∧
    ¬ c4raise.1.to_act = claimed_to_act c4raise.2.1 3 := by
  decide

/-- C5 counterexample: in the claimed heads-up scenario (1000/1000, SB 5,
BB 10, A dealer/SB folds preflop) the chips and stage match the claim but
the pot field is **not** reset to 0 — `_maybe_finish_early` awards the pot
without clearing it, so `pot = 15` until the next `StartHand`. -/
theorem C5_pot_not_reset :
    c5fold.2.2 = none ∧
    (c5fold.2.1.map (fun p => (p.seat, p.chips))) = [(1, 995), (2, 1005)] ∧
    c5fold.1.stage = Stage.waiting ∧
    c5fold.1.pot = 15 ∧ ¬ c5fold.1.pot = 0 := by
  decide

/-- C5 amended: same scenario, with the actual pot value: A has 995, B has
1005, `stage = waiting`, `started = false`, and `pot` holds the stale
value 15 (the pot is only zeroed by the next `StartHand`). -/
theorem C5_amended_outcome :
    c5fold.2.2 = none ∧
    (c5fold.2.1.map (fun p => (p.seat, p.chips))) = [(1, 995), (2, 1005)] ∧
    c5fold.1.stage = Stage.waiting ∧ c5fold.1.started = false ∧
    c5fold.1.act_seat = none ∧ c5fold.1.pot = 15 := by
  decide

/-- The error component of `Table.start_hand`: the only raised error is
the player-count check. -/
theorem start_hand_err (t : Table) (ps : List Player) (d : List String) :
    (start_hand t ps d).2.2 = if ps.length < 2 then some "至少需要 2 名玩家" else none := by
  unfold start_hand
  dsimp only
  have hlen : (pysort (seatsOf ps)).length = ps.length := by
    unfold pysort
    rw [(List.perm_insertionSort (· ≤ ·) (seatsOf ps)).length_eq]
    simp [seatsOf]
  rw [hlen]
  split <;> rfl

/-- C9 (confirmed): `_post_blind` marks the poster all-in exactly when its
chips are 0 after the payment (the poster enters the hand with
`all_in = false`, reset by `start_hand`); and a seated 0-chip player is
dealt into the hand by `StartHand`: it receives 2 hole cards, posts a
blind of 0, contributes nothing to the pot, and is flagged all-in. -/
theorem C9_blind_all_in_flag :
    (∀ (t : Table) (ps : List Player) (seat : Nat) (a : Int) (p q : Player),
      findSeat ps seat = some p → p.all_in = false →
      findSeat (post_blind t ps seat a).2.1 seat = some q →
      (q.all_in = true ↔ q.chips = 0)) ∧
    ((findSeat c9start.2.1 2).map
        (fun q => (q.hand.length, q.total_bet, q.all_in, q.chips)) = some (2, 0, true, 0) ∧
      c9start.1.pot = 5 ∧ c9start.2.2 = none) := by
  constructor
  · intro t ps seat a p q hfind hpre hq
    unfold post_blind at hq
    rw [hfind] at hq
    dsimp only at hq
    rw [findSeat_updPlayer ps seat
      (fun q =>
        { q with chips := q.chips - min a p.chips, bet := q.bet + min a p.chips,
                 total_bet := q.total_bet + min a p.chips,
                 all_in := if q.chips - min a p.chips = 0 then true else q.all_in })
      (fun q => rfl), hfind] at hq
    simp only [Option.map_some', Option.some.injEq] at hq
    subst hq
    dsimp only
    rw [hpre]
    by_cases hc : p.chips - min a p.chips = 0
    · rw [if_pos hc]
      simp [hc]
    · rw [if_neg hc]
      simp [hc]
  · exact ⟨by decide, by decide, by decide⟩

/-- Witness for C9: posting the 10 big blind from a 0-chip stack. -/
theorem C9_blind_all_in_witness : pC9post.all_in = true ↔ pC9post.chips = 0 :=
  C9_blind_all_in_flag.1 (initTable 5 10) psC9 2 10 pC9 pC9post (by decide) (by decide)
    (by decide)

/-- C6 (amended): the only precondition `Table.start_hand` enforces is
"at least 2 seated players"; `GameRoom.start_hand` succeeds exactly when
the requester is seated, at least 2 players are present, and every player
is ready.  Neither checks `chips > 0` nor `stage = waiting`. -/
theorem C6_start_hand_checks_amended :
    (∀ (t : Table) (ps : List Player) (d : List String),
      (start_hand t ps d).2.2 = if ps.length < 2 then some "至少需要 2 名玩家" else none) ∧
    (∀ (room : Room) (rs : String) (d : List String),
      ((room_start_hand room rs d).2 = none ↔
        (room.players.any (fun p => p.sid = rs)) = true ∧
        2 ≤ room.players.length ∧
        (room.players.all (·.ready)) = true)) := by
  constructor
  · exact start_hand_err
  · intro room rs d
    unfold room_start_hand
    dsimp only
    split
    · rename_i h1
      constructor
      · intro h; exact Option.noConfusion h
      · rintro ⟨ha, -, -⟩; rw [ha] at h1; exact Bool.noConfusion h1
    · rename_i h1
      split
      · rename_i h2
        constructor
        · intro h; exact Option.noConfusion h
        · rintro ⟨-, hl, -⟩; omega
      · rename_i h2
        split
        · rename_i h3
          constructor
          · intro h; exact Option.noConfusion h
          · rintro ⟨-, -, hr⟩; rw [hr] at h3; exact Bool.noConfusion h3
        · rename_i h3
          dsimp only
          rw [start_hand_err]
          rw [if_neg h2]
          simp only [true_iff, iff_true]
          exact ⟨eq_true_of_ne_false h1, by omega, eq_true_of_ne_false h3⟩

/-- C7 (confirmed): whenever `apply_action` raises a protocol-violation
error (not started / not seated / not your turn / already folded / cannot
check / below minimum raise / insufficient chips / missing amount /
unknown action), the whole table state and every player record are
exactly as before the call: every `raise` in the source happens before
any mutation.  (`InvalidAmount` — a non-numeric `amount` string — lives
at the transport boundary: here `amount` is already `Option Int`.) -/
theorem C7_error_leaves_state_unchanged :
    ∀ (t : Table) (ps : List Player) (sid a : String) (amt : Option Int)
      (t' : Table) (ps' : List Player) (e : String),
      apply_action t ps sid a amt = (t', ps', some e) → t' = t ∧ ps' = ps := by
  intro t ps sid a amt t' ps' e h
  unfold apply_action at h
  dsimp only at h
  repeat' split at h
  all_goals
    first
      | (simp only [Prod.mk.injEq] at h; exact ⟨h.1.symm, h.2.1.symm⟩)
      | (exact absurd h.symm (by simp))

/-- Witness for C7: calling `apply_action` on a table that has not
started fails with "牌局未开始" and leaves table and players untouched. -/
theorem C7_error_witness :
    (initTable 5 10 : Table) = initTable 5 10 ∧ psHU = psHU :=
  C7_error_leaves_state_unchanged (initTable 5 10) psHU "a" "fold" none
    (initTable 5 10) psHU "牌局未开始" (by decide)

/-- C6 counterexample: `StartHand` succeeds with a seated 0-chip player
(first conjunct block) and succeeds again while a hand is already in
progress (second block, `hand_no` jumps to 2) — neither the `chips > 0`
nor the `stage = waiting` precondition of the claim is enforced. -/
theorem C6_preconditions_not_enforced :
    (∃ p ∈ roomC6.players, p.chips = 0) ∧ roomC6.table.stage = Stage.waiting ∧
    c6zero.2 = none ∧ c6zero.1.table.started = true ∧
    c6zero.1.table.stage = Stage.preflop ∧
    c6midhand.2 = none ∧ c6midhand.1.table.hand_no = 2 := by
  decide

end Poker
